import Mathlib

/-!
Shallow embedding of the event-analysis pipeline of the audio event
spotter: confidence filtering, descending stable sort, demo-fill
synthesis, the baby-sneeze append, capping, danger classification,
advisory and summary generation, and the analysis history.

Sources embedded (TypeScript):
* `src/lib/actions.ts` — `analyzeAudioClip`: filter at 0.8, sort by
  confidence, demo fill to 5 cycling `eventTypesForStats` keys, explicit
  "Baby sneeze" append, `slice(0, 5)`.
* `src/unnamed/part_004` — the no-fill variant (filter, sort, slice).
* `src/unnamed/part_005` — danger classification over
  `DANGEROUS_EVENTS` substrings and the conditional precaution call.
* `src/unnamed/part_003` — the conditional summary call.
* `src/app/components/audio-analysis-client.tsx` — `handleAnalysis`:
  prepend the new result to the history on success, leave it unchanged
  on failure.

Numbers are rationals (the decimal literals of the source written as
fractions); `Math.random()` is an explicit oracle `rand : Nat → ℚ`
indexed by the loop counter at the call site; strings compared
case-insensitively are lists of characters with `Char.toLower`.
-/

namespace Spotter

/-- Event labels, modelled as lists of characters so that
`toLowerCase`/`includes` become `List.map Char.toLower` and `<:+:`. -/
abbrev Label := List Char

/-- The characters of a string literal. -/
def strL (s : String) : Label := s.data

/-- JavaScript `s.toLowerCase()` on a label. -/
def lowerL (s : Label) : Label := s.map Char.toLower

/-- `DetectedEvent` from `src/lib/types.ts`:
`{ id, event, startTime, endTime, confidence }`. -/
structure DetectedEvent where
  id : String
  event : Label
  startTime : ℚ
  endTime : ℚ
  confidence : ℚ
deriving DecidableEq

/-- `events.filter(event => event.confidence >= t)` (threshold `0.8` in
`actions.ts`, kept as a parameter as in the spec's `curate` contract). -/
def confFilter (t : ℚ) (l : List DetectedEvent) : List DetectedEvent :=
  l.filter (fun e => decide (t ≤ e.confidence))

/-- The descending-confidence order used by the comparator
`(a, b) => b.confidence - a.confidence`. -/
def confGE (a b : DetectedEvent) : Prop := b.confidence ≤ a.confidence

instance : DecidableRel confGE :=
  fun a b => inferInstanceAs (Decidable (b.confidence ≤ a.confidence))

instance : IsTotal DetectedEvent confGE := ⟨fun a b => le_total b.confidence a.confidence⟩

instance : IsTrans DetectedEvent confGE := ⟨fun _ _ _ hab hbc => le_trans hbc hab⟩

/-- `detectedEvents.sort((a, b) => b.confidence - a.confidence)` —
JavaScript `Array.prototype.sort` is stable (ES2019), modelled by the
stable `List.insertionSort`. -/
def sortDesc (l : List DetectedEvent) : List DetectedEvent :=
  List.insertionSort confGE l

/-- `Object.keys(eventTypesForStats)` in `actions.ts`, in insertion
order. -/
def requiredEvents : List Label :=
  [strL "glass break", strL "shout detected", strL "siren freq", strL "heavy impact",
   strL "conversation", strL "dog bark", strL "baby sneeze", strL "keyboard typing",
   strL "phone ring", strL "door slam"]

/-- `name.charAt(0).toUpperCase() + name.slice(1)`. -/
def capitalize : Label → Label
  | [] => []
  | c :: cs => c.toUpper :: cs

/-- `finalEvents.some(e => e.event.toLowerCase().includes(name))`. -/
def someContains (l : List DetectedEvent) (name : Label) : Bool :=
  l.any (fun e => decide (name <:+: lowerL e.event))

/-- The synthetic filler event pushed at loop counter `c`:
`{ id: dummy-c, event: capitalized name, startTime: 1 + c*1.5,
endTime: 2 + c*1.5, confidence: 0.8 + Math.random() * 0.2 }`. -/
def mkDummy (rand : Nat → ℚ) (c : Nat) (name : Label) : DetectedEvent :=
  { id := "dummy-" ++ toString c
    event := capitalize name
    startTime := 1 + (c : ℚ) * mkRat 3 2
    endTime := 2 + (c : ℚ) * mkRat 3 2
    confidence := mkRat 4 5 + rand c * mkRat 1 5 }

/-- The `while (eventCount < 5)` demo-fill loop of `actions.ts`, with
`fuel = 5 - eventCount` iterations; `c` is `eventCount`, which counts
every iteration, also the skipped ones. -/
def fillLoop (rand : Nat → ℚ) : Nat → Nat → List DetectedEvent → List DetectedEvent
  | 0, _, l => l
  | fuel + 1, c, l =>
    let name := requiredEvents.getD (c % 10) []
    let l2 := if someContains l name then l else l ++ [mkDummy rand c name]
    fillLoop rand fuel (c + 1) l2

/-- The whole fill phase: start with `eventCount = finalEvents.length`
and loop while `eventCount < 5`. -/
def fillStep (rand : Nat → ℚ) (l : List DetectedEvent) : List DetectedEvent :=
  fillLoop rand (5 - l.length) l.length l

/-- The event pushed by the explicit baby-sneeze block. -/
def sneezeEvent : DetectedEvent :=
  { id := "dummy-sneeze", event := strL "Baby sneeze",
    startTime := 3, endTime := mkRat 7 2, confidence := mkRat 19 20 }

/-- `if (!finalEvents.some(e => e.event.toLowerCase().includes("baby
sneeze"))) finalEvents.push({...})`. -/
def sneezeStep (l : List DetectedEvent) : List DetectedEvent :=
  if someContains l (strL "baby sneeze") then l else l ++ [sneezeEvent]

/-- The event-curation phase of `analyzeAudioClip` in `actions.ts`:
filter, stable descending sort, demo fill, baby-sneeze append, then
`slice(0, 5)`. -/
def curate (rand : Nat → ℚ) (t : ℚ) (raw : List DetectedEvent) : List DetectedEvent :=
  (sneezeStep (fillStep rand (sortDesc (confFilter t raw)))).take 5

/-- The filler-disabled curation of `part_004`: filter, sort,
`slice(0, 5)` only. -/
def curateNoFill (t : ℚ) (raw : List DetectedEvent) : List DetectedEvent :=
  (sortDesc (confFilter t raw)).take 5

/-- `DANGEROUS_EVENTS` from `part_005`. -/
def DANGEROUS_EVENTS : List Label :=
  [strL "siren", strL "glass break", strL "shout", strL "heavy impact", strL "phone ring"]

/-- The danger classification of `part_005`: keep events whose
lowercased label contains some dangerous substring, project the
original labels, flag when nonempty. -/
def classifyDanger (events : List DetectedEvent) (ds : List Label) : Bool × List Label :=
  let matched :=
    (events.filter (fun e => ds.any (fun d => decide (d <:+: lowerL e.event)))).map
      (fun e => e.event)
  (decide (0 < matched.length), matched)

/-- The conditional advisory call of `part_005`: the second component
counts invocations of the Advisory Generator `advGen`. -/
def buildPrecaution (advGen : List Label → String) (events : List DetectedEvent) :
    (Bool × String) × Nat :=
  let dc := classifyDanger events DANGEROUS_EVENTS
  if dc.1 then ((true, advGen dc.2), 1) else ((false, ""), 0)

/-- The fixed summary used when no events survive the filter. -/
def noEventsSummary : String := "No significant events were detected with high confidence."

/-- The conditional summary call of `part_003`: the second component
counts invocations of the Summary Generator `sumGen`. -/
def buildSummary (sumGen : List DetectedEvent → String) (detected : List DetectedEvent) :
    String × Nat :=
  if 0 < detected.length then (sumGen detected, 1) else (noEventsSummary, 0)

/-- The summary path of `analyzeAudioClip` in `part_003`: filter at
0.8, then build the summary from the surviving events. -/
def analyzeForSummary (sumGen : List DetectedEvent → String) (raw : List DetectedEvent) :
    (List DetectedEvent × String) × Nat :=
  let detected := confFilter (mkRat 4 5) raw
  let s := buildSummary sumGen detected
  ((detected, s.1), s.2)

/-- The message of the error thrown by the catch-all in
`analyzeAudioClip`. -/
def analysisFailedMsg : String := "Failed to analyze the audio clip. Please try again."

/-- One stored analysis result, reduced to the fields the claims are
about. -/
structure AnalysisRec where
  name : String
  events : List DetectedEvent
deriving DecidableEq

/-- `analyzeAudioClip` of `actions.ts` with the Classifier Gateway
outcome made explicit: a gateway failure is caught and rethrown as the
fixed failure message before any curation; a gateway success is
curated into a result. -/
def analyzeAudioClip (rand : Nat → ℚ) (clipName : String)
    (gw : Except String (List DetectedEvent)) : Except String AnalysisRec :=
  match gw with
  | .error _ => .error analysisFailedMsg
  | .ok evs => .ok ⟨clipName, curate rand (mkRat 4 5) evs⟩

/-- `handleAnalysis` of `audio-analysis-client.tsx`: on success prepend
the new result to the history (`setAnalysisHistory(prev => [newAnalysis,
...prev])`), on failure record the error and leave the history
unchanged. -/
def handleAnalysis (rand : Nat → ℚ) (hist : List AnalysisRec) (clipName : String)
    (gw : Except String (List DetectedEvent)) : List AnalysisRec × Option String :=
  match analyzeAudioClip rand clipName gw with
  | .ok r => (r :: hist, none)
  | .error m => (hist, some m)

/-- The spec's case-insensitive containment: some contiguous substring
of the label equals the dangerous string up to letter case. -/
def ciContains (a d : Label) : Prop := ∃ s, s <:+: a ∧ lowerL s = lowerL d

instance ciContainsDec (a d : Label) : Decidable (ciContains a d) :=
  decidable_of_iff (lowerL d <:+: lowerL a)
    (Iff.intro
      (fun h => by
        obtain ⟨p, q, hpq⟩ := h
        have h1 : a.map Char.toLower = p ++ (lowerL d ++ q) := by
          show lowerL a = _
          rw [← List.append_assoc, hpq]
        obtain ⟨u, v, huv, _, hv⟩ := List.map_eq_append_iff.mp h1
        obtain ⟨v1, v2, hv12, hv1, _⟩ := List.map_eq_append_iff.mp hv
        exact ⟨v1, ⟨u, v2, by rw [huv, hv12, List.append_assoc]⟩, hv1⟩)
      (fun h => by
        obtain ⟨s, hs, heq⟩ := h
        have h2 : lowerL s <:+: lowerL a := hs.map Char.toLower
        rwa [heq] at h2))

/-- A deterministic stand-in for `Math.random` used in concrete runs. -/
def rand0 : Nat → ℚ := fun _ => 0

/-- Concrete classified events used in concrete runs: all pass the 0.8
filter, and their labels contain the two filler categories the fill
loop would try (indexes 3 and 4), so the loop pushes nothing. -/
def evA : DetectedEvent := ⟨"a", strL "Heavy impact", 0, 1, mkRat 9 10⟩

def evB : DetectedEvent := ⟨"b", strL "Conversation", 1, 2, mkRat 17 20⟩

def evC : DetectedEvent := ⟨"c", strL "Zzz", 2, 3, mkRat 41 50⟩

def raw3 : List DetectedEvent := [evA, evB, evC]

/-- A concrete curated list with one dangerous event (the spec's own
example: "Ambient Siren" contains "siren" case-insensitively). -/
def dangerEx : List DetectedEvent := [⟨"e1", strL "Ambient Siren", 0, 1, mkRat 9 10⟩]

/-- Five concrete classified events that all pass the 0.8 filter. -/
def raw5 : List DetectedEvent :=
  [⟨"r1", strL "Dog bark", 0, 1, mkRat 99 100⟩,
   ⟨"r2", strL "Phone ring", 1, 2, mkRat 49 50⟩,
   ⟨"r3", strL "Door slam", 2, 3, mkRat 24 25⟩,
   ⟨"r4", strL "Meow", 3, 4, mkRat 19 20⟩,
   ⟨"r5", strL "Speech", 4, 5, mkRat 9 10⟩]

/-- A deterministic Advisory Generator test double. -/
def advX : List Label → String := fun _ => "advisory"

/-- A deterministic Summary Generator test double. -/
def sumX : List DetectedEvent → String := fun _ => "synopsis"

/-! ## Helper lemmas about the fill loop and containment checks -/

theorem someContains_append_left {l l2 : List DetectedEvent} {name : Label}
    (h : someContains l name = true) : someContains (l ++ l2) name = true := by
  simp only [someContains, List.any_eq_true] at h ⊢
  obtain ⟨e, he, hp⟩ := h
  exact ⟨e, List.mem_append_left _ he, hp⟩

theorem someContains_push (l : List DetectedEvent) (e : DetectedEvent) (name : Label)
    (h : name <:+: lowerL e.event) : someContains (l ++ [e]) name = true := by
  simp only [someContains, List.any_eq_true]
  exact ⟨e, List.mem_append_right _ (List.mem_singleton_self e), by simpa using h⟩

theorem someContains_perm {l l2 : List DetectedEvent} (h : l.Perm l2) (name : Label) :
    someContains l name = someContains l2 name := by
  rw [Bool.eq_iff_iff]
  simp only [someContains, List.any_eq_true]
  constructor
  · rintro ⟨e, he, hp⟩
    exact ⟨e, h.mem_iff.mp he, hp⟩
  · rintro ⟨e, he, hp⟩
    exact ⟨e, h.mem_iff.mpr he, hp⟩

theorem fillLoop_succ (rand : Nat → ℚ) (fuel c : Nat) (l : List DetectedEvent) :
    fillLoop rand (fuel + 1) c l
      = fillLoop rand fuel (c + 1)
          (if someContains l (requiredEvents.getD (c % 10) []) then l
           else l ++ [mkDummy rand c (requiredEvents.getD (c % 10) [])]) := rfl

theorem fillLoop_append (rand : Nat → ℚ) :
    ∀ (fuel c : Nat) (l : List DetectedEvent), ∃ ext, fillLoop rand fuel c l = l ++ ext := by
  intro fuel
  induction fuel with
  | zero => exact fun c l => ⟨[], by simp [fillLoop]⟩
  | succ fuel ih =>
    intro c l
    rw [fillLoop_succ]
    by_cases h : someContains l (requiredEvents.getD (c % 10) []) = true
    · rw [if_pos h]
      exact ih (c + 1) l
    · rw [if_neg h]
      obtain ⟨ext, hext⟩ := ih (c + 1) (l ++ [mkDummy rand c (requiredEvents.getD (c % 10) [])])
      exact ⟨[mkDummy rand c (requiredEvents.getD (c % 10) [])] ++ ext,
        by rw [hext, List.append_assoc]⟩

theorem mem_fillLoop (rand : Nat → ℚ) :
    ∀ (fuel c : Nat) (l : List DetectedEvent) (e : DetectedEvent),
      e ∈ fillLoop rand fuel c l →
      e ∈ l ∨ ∃ k, e = mkDummy rand k (requiredEvents.getD (k % 10) []) := by
  intro fuel
  induction fuel with
  | zero => exact fun c l e h => Or.inl h
  | succ fuel ih =>
    intro c l e h
    rw [fillLoop_succ] at h
    by_cases hc : someContains l (requiredEvents.getD (c % 10) []) = true
    · rw [if_pos hc] at h
      exact ih _ _ _ h
    · rw [if_neg hc] at h
      rcases ih _ _ _ h with h2 | h2
      · rcases List.mem_append.mp h2 with h3 | h3
        · exact Or.inl h3
        · exact Or.inr ⟨c, by simpa using h3⟩
      · exact Or.inr h2

theorem fillLoop_skip_all (rand : Nat → ℚ) :
    ∀ (fuel c : Nat) (l : List DetectedEvent),
      (∀ j, c ≤ j → j < c + fuel →
        someContains l (requiredEvents.getD (j % 10) []) = true) →
      fillLoop rand fuel c l = l := by
  intro fuel
  induction fuel with
  | zero => exact fun c l _ => rfl
  | succ fuel ih =>
    intro c l h
    rw [fillLoop_succ, if_pos (h c le_rfl (by omega))]
    exact ih (c + 1) l fun j hj1 hj2 => h j (by omega) (by omega)

theorem cat_infix_lower_capitalize (j : Nat) :
    requiredEvents.getD (j % 10) [] <:+: lowerL (capitalize (requiredEvents.getD (j % 10) [])) := by
  have h10 : ∀ m, m < 10 →
      requiredEvents.getD m [] <:+: lowerL (capitalize (requiredEvents.getD m [])) := by decide
  exact h10 (j % 10) (Nat.mod_lt _ (by omega))

theorem someContains_fillLoop (rand : Nat → ℚ) :
    ∀ (fuel c : Nat) (l : List DetectedEvent) (j : Nat), c ≤ j → j < c + fuel →
      someContains (fillLoop rand fuel c l) (requiredEvents.getD (j % 10) []) = true := by
  intro fuel
  induction fuel with
  | zero =>
    intro c l j h1 h2
    omega
  | succ fuel ih =>
    intro c l j h1 h2
    rw [fillLoop_succ]
    by_cases hj : j = c
    · subst hj
      by_cases hc : someContains l (requiredEvents.getD (j % 10) []) = true
      · rw [if_pos hc]
        obtain ⟨ext, hext⟩ := fillLoop_append rand fuel (j + 1) l
        rw [hext]
        exact someContains_append_left hc
      · rw [if_neg hc]
        obtain ⟨ext, hext⟩ :=
          fillLoop_append rand fuel (j + 1) (l ++ [mkDummy rand j (requiredEvents.getD (j % 10) [])])
        rw [hext]
        exact someContains_append_left
          (someContains_push l _ _ (cat_infix_lower_capitalize j))
    · by_cases hc : someContains l (requiredEvents.getD (c % 10) []) = true
      · rw [if_pos hc]
        exact ih (c + 1) l j (by omega) (by omega)
      · rw [if_neg hc]
        exact ih (c + 1) _ j (by omega) (by omega)

/-! ## Curate-level helper lemmas -/

theorem mem_sortDesc {l : List DetectedEvent} {e : DetectedEvent} :
    e ∈ sortDesc l ↔ e ∈ l := List.mem_insertionSort confGE

theorem length_sortDesc (l : List DetectedEvent) : (sortDesc l).length = l.length :=
  List.length_insertionSort confGE l

theorem mem_confFilter {t : ℚ} {raw : List DetectedEvent} {e : DetectedEvent} :
    e ∈ confFilter t raw ↔ e ∈ raw ∧ t ≤ e.confidence := by
  simp [confFilter, List.mem_filter]

theorem mem_sneezeStep {l : List DetectedEvent} {e : DetectedEvent}
    (h : e ∈ sneezeStep l) : e ∈ l ∨ e = sneezeEvent := by
  rw [sneezeStep] at h
  split at h
  · exact Or.inl h
  · rcases List.mem_append.mp h with h2 | h2
    · exact Or.inl h2
    · exact Or.inr (List.mem_singleton.mp h2)

theorem mem_curate {rand : Nat → ℚ} {t : ℚ} {raw : List DetectedEvent} {e : DetectedEvent}
    (h : e ∈ curate rand t raw) :
    (e ∈ raw ∧ t ≤ e.confidence)
      ∨ (∃ k, e = mkDummy rand k (requiredEvents.getD (k % 10) []))
      ∨ e = sneezeEvent := by
  have h1 : e ∈ sneezeStep (fillStep rand (sortDesc (confFilter t raw))) :=
    List.mem_of_mem_take h
  rcases mem_sneezeStep h1 with h2 | h2
  · rcases mem_fillLoop rand _ _ _ e h2 with h3 | h3
    · exact Or.inl (mem_confFilter.mp (mem_sortDesc.mp h3))
    · exact Or.inr (Or.inl h3)
  · exact Or.inr (Or.inr h2)

theorem mkDummy_conf_lb (rand : Nat → ℚ) (c : Nat) (name : Label) (h : 0 ≤ rand c) :
    mkRat 4 5 ≤ (mkDummy rand c name).confidence := by
  simp only [mkDummy, Rat.mkRat_eq_div]
  nlinarith [h]

theorem mkDummy_conf_ub (rand : Nat → ℚ) (c : Nat) (name : Label) (h : rand c < 1) :
    (mkDummy rand c name).confidence < 1 := by
  simp only [mkDummy, Rat.mkRat_eq_div]
  nlinarith [h]

theorem length_curate_le (rand : Nat → ℚ) (t : ℚ) (raw : List DetectedEvent) :
    (curate rand t raw).length ≤ 5 := by
  simp only [curate, List.length_take]
  omega

/-! ## C1 — confidence policy of the curated output -/

/-- C1: for every raw event list and confidence threshold `t`, every
event of the curated output is either a real event of the raw list
whose confidence passed the filter (so is at least `t`), or one of the
synthetic records fabricated by the curation step — a demo filler
`mkDummy` or the baby sneeze — and every such synthetic event has
confidence at least 0.65 and below 1.0, given that `Math.random()`
yields values in `[0, 1)`. Hence no non-synthetic event below `t`
appears in the output. -/
theorem curated_confidence_policy (rand : Nat → ℚ) (t : ℚ) (raw : List DetectedEvent)
    (hr : ∀ k, 0 ≤ rand k ∧ rand k < 1) :
    ∀ e ∈ curate rand t raw,
      (e ∈ raw ∧ t ≤ e.confidence)
        ∨ (((∃ k, e = mkDummy rand k (requiredEvents.getD (k % 10) [])) ∨ e = sneezeEvent)
            ∧ mkRat 13 20 ≤ e.confidence ∧ e.confidence < 1) := by
  intro e he
  rcases mem_curate he with ⟨h1, h2⟩ | ⟨k, hk⟩ | hs
  · exact Or.inl ⟨h1, h2⟩
  · right
    refine ⟨Or.inl ⟨k, hk⟩, ?_, hk ▸ mkDummy_conf_ub rand k _ (hr k).2⟩
    have h45 : (mkRat 13 20 : ℚ) ≤ mkRat 4 5 := by norm_num [Rat.mkRat_eq_div]
    exact le_trans h45 (hk ▸ mkDummy_conf_lb rand k _ (hr k).1)
  · subst hs
    refine Or.inr ⟨Or.inr rfl, ?_, ?_⟩ <;> norm_num [sneezeEvent, Rat.mkRat_eq_div]

/-- Witness for C1 at a concrete input: the baby-sneeze entry of
`curate rand0 0.8 raw3` is classified as synthetic and lies in the
synthetic confidence band. -/
theorem curated_confidence_policy_witness :
    (sneezeEvent ∈ raw3 ∧ mkRat 4 5 ≤ sneezeEvent.confidence)
      ∨ (((∃ k, sneezeEvent = mkDummy rand0 k (requiredEvents.getD (k % 10) []))
            ∨ sneezeEvent = sneezeEvent)
          ∧ mkRat 13 20 ≤ sneezeEvent.confidence ∧ sneezeEvent.confidence < 1) :=
  curated_confidence_policy rand0 (mkRat 4 5) raw3
    (fun _ => ⟨le_refl 0, by norm_num [rand0]⟩) sneezeEvent (by decide)

/-! ## C2 — output length -/

theorem fillStep_eq (rand : Nat → ℚ) (l : List DetectedEvent) :
    fillStep rand l = fillLoop rand (5 - l.length) l.length l := rfl

theorem fillStep_of_five_le (rand : Nat → ℚ) {l : List DetectedEvent} (h : 5 ≤ l.length) :
    fillStep rand l = l := by
  rw [fillStep_eq, Nat.sub_eq_zero_of_le h]
  rfl

theorem sneezeStep_append_form (l : List DetectedEvent) :
    ∃ ext, sneezeStep l = l ++ ext := by
  rw [sneezeStep]
  split
  · exact ⟨[], by simp⟩
  · exact ⟨[sneezeEvent], rfl⟩

theorem curate_append_form (rand : Nat → ℚ) (t : ℚ) (raw : List DetectedEvent) :
    ∃ ext, curate rand t raw = (sortDesc (confFilter t raw) ++ ext).take 5 := by
  obtain ⟨ext1, h1⟩ := fillLoop_append rand (5 - (sortDesc (confFilter t raw)).length)
    (sortDesc (confFilter t raw)).length (sortDesc (confFilter t raw))
  obtain ⟨ext2, h2⟩ := sneezeStep_append_form (fillStep rand (sortDesc (confFilter t raw)))
  refine ⟨ext1 ++ ext2, ?_⟩
  rw [curate, h2, fillStep_eq, h1, List.append_assoc]

/-- C2 (counterexample): on three already-covering events the fill loop
skips both remaining categories while still counting them, so the
output has length 4, not `min 5 (max 5 3) = 5`. -/
theorem curate_length_formula_counterexample :
    ¬ ((curate rand0 (mkRat 4 5) raw3).length
        = min 5 (max 5 (confFilter (mkRat 4 5) raw3).length)) := by decide

/-- C2 (amended): with filler disabled the output length is exactly
`min filteredCount 5`; with filler enabled it is exactly 5 whenever at
least 5 events pass the filter, and in general lies between
`min filteredCount 5` and 5 — the fill loop counts skipped categories,
so fewer than `minResults` events can remain when categories are
already present among the filtered labels. -/
theorem curate_length_policy (rand : Nat → ℚ) (t : ℚ) (raw : List DetectedEvent) :
    (curateNoFill t raw).length = min (confFilter t raw).length 5
  ∧ (5 ≤ (confFilter t raw).length → (curate rand t raw).length = 5)
  ∧ min (confFilter t raw).length 5 ≤ (curate rand t raw).length
  ∧ (curate rand t raw).length ≤ 5 := by
  refine ⟨?_, ?_, ?_, length_curate_le rand t raw⟩
  · rw [curateNoFill, List.length_take, length_sortDesc, Nat.min_comm]
  · intro h
    have hf : fillStep rand (sortDesc (confFilter t raw)) = sortDesc (confFilter t raw) :=
      fillStep_of_five_le rand (by rw [length_sortDesc]; omega)
    obtain ⟨ext2, h2⟩ := sneezeStep_append_form (sortDesc (confFilter t raw))
    rw [curate, hf, h2, List.length_take, List.length_append, length_sortDesc]
    omega
  · obtain ⟨ext, hext⟩ := curate_append_form rand t raw
    rw [hext, List.length_take, List.length_append, length_sortDesc]
    omega

/-- Witness for C2 at a concrete input: with five events passing the
filter the curated output has length exactly 5. -/
theorem curate_length_policy_witness :
    (curate rand0 (mkRat 4 5) raw5).length = 5 :=
  (curate_length_policy rand0 (mkRat 4 5) raw5).2.1 (by decide)

/-! ## C3 — ordering of the curated output -/

theorem filter_orderedInsert_conf_eq (c : ℚ) (a : DetectedEvent)
    (l : List DetectedEvent) (h : a.confidence = c) :
    (List.orderedInsert confGE a l).filter (fun e => decide (e.confidence = c))
      = a :: l.filter (fun e => decide (e.confidence = c)) := by
  induction l with
  | nil => simp [List.orderedInsert, h]
  | cons b l ih =>
    rw [List.orderedInsert]
    by_cases hb : confGE a b
    · rw [if_pos hb]
      simp [List.filter_cons, h]
    · rw [if_neg hb]
      have hbc : ¬ (b.confidence = c) := by
        intro hc
        exact hb (le_of_eq (by rw [hc, h]))
      simp [List.filter_cons, hbc, ih]

theorem filter_orderedInsert_conf_ne (c : ℚ) (a : DetectedEvent)
    (l : List DetectedEvent) (h : ¬ a.confidence = c) :
    (List.orderedInsert confGE a l).filter (fun e => decide (e.confidence = c))
      = l.filter (fun e => decide (e.confidence = c)) := by
  induction l with
  | nil => simp [List.orderedInsert, h]
  | cons b l ih =>
    rw [List.orderedInsert]
    by_cases hb : confGE a b
    · rw [if_pos hb]
      simp [List.filter_cons, h]
    · rw [if_neg hb]
      simp [List.filter_cons, ih]

theorem sortDesc_stable (l : List DetectedEvent) (c : ℚ) :
    (sortDesc l).filter (fun e => decide (e.confidence = c))
      = l.filter (fun e => decide (e.confidence = c)) := by
  induction l with
  | nil => rfl
  | cons x xs ih =>
    show (List.orderedInsert confGE x (sortDesc xs)).filter _ = _
    by_cases hx : x.confidence = c
    · rw [filter_orderedInsert_conf_eq c x _ hx, ih, List.filter_cons]
      simp [hx]
    · rw [filter_orderedInsert_conf_ne c x _ hx, ih, List.filter_cons]
      simp [hx]

theorem sortDesc_pairwise (l : List DetectedEvent) : (sortDesc l).Pairwise confGE :=
  List.sorted_insertionSort confGE l

/-- C3 (counterexample): the curated output of `raw3` is
`[evA, evB, evC, sneezeEvent]` with confidences 0.9, 0.85, 0.82, 0.95 —
the appended synthetic baby sneeze breaks the non-increasing order. -/
theorem curate_sorted_counterexample :
    ¬ (curate rand0 (mkRat 4 5) raw3).Pairwise confGE := by decide

/-- C3 (amended): the curated output is the stable descending sort of
the filtered real events followed by the appended synthetic events
(then capped at 5): the real-event part is pairwise non-increasing in
confidence and equal-confidence events keep their arrival order, but
appended synthetic events may break the global order. -/
theorem curate_order_decomposition (rand : Nat → ℚ) (t : ℚ) (raw : List DetectedEvent) :
    (∃ ext, curate rand t raw = (sortDesc (confFilter t raw) ++ ext).take 5)
  ∧ (sortDesc (confFilter t raw)).Pairwise confGE
  ∧ ∀ c : ℚ, (sortDesc (confFilter t raw)).filter (fun e => decide (e.confidence = c))
      = (confFilter t raw).filter (fun e => decide (e.confidence = c)) :=
  ⟨curate_append_form rand t raw, sortDesc_pairwise _, sortDesc_stable _⟩

/-! ## C4 — danger classification -/

theorem ciContains_iff (a d : Label) : ciContains a d ↔ lowerL d <:+: lowerL a := by
  constructor
  · rintro ⟨s, hs, heq⟩
    have h2 : lowerL s <:+: lowerL a := hs.map Char.toLower
    rwa [heq] at h2
  · intro h
    obtain ⟨p, q, hpq⟩ := h
    have h1 : a.map Char.toLower = p ++ (lowerL d ++ q) := by
      show lowerL a = _
      rw [← List.append_assoc, hpq]
    obtain ⟨u, v, huv, _, hv⟩ := List.map_eq_append_iff.mp h1
    obtain ⟨v1, v2, hv12, hv1, _⟩ := List.map_eq_append_iff.mp hv
    exact ⟨v1, ⟨u, v2, by rw [huv, hv12, List.append_assoc]⟩, hv1⟩

theorem danger_match_iff {ds : List Label} (hds : ∀ d ∈ ds, lowerL d = d)
    (e : DetectedEvent) :
    ds.any (fun d => decide (d <:+: lowerL e.event)) = true
      ↔ ∃ d ∈ ds, ciContains e.event d := by
  rw [List.any_eq_true]
  constructor
  · rintro ⟨d, hd, hp⟩
    refine ⟨d, hd, ?_⟩
    rw [ciContains_iff, hds d hd]
    exact of_decide_eq_true hp
  · rintro ⟨d, hd, hp⟩
    rw [ciContains_iff, hds d hd] at hp
    exact ⟨d, hd, decide_eq_true hp⟩

/-- C4: over any dangerous-substring set given in lowercase (as the
fixed `DANGEROUS_EVENTS` is), `isDanger` is true iff some event's label
case-insensitively contains some dangerous substring, and
`matchedLabels` is exactly the original label of each matching event in
curated-list order, duplicates allowed. -/
theorem classifyDanger_correct (events : List DetectedEvent) (ds : List Label)
    (hds : ∀ d ∈ ds, lowerL d = d) :
    ((classifyDanger events ds).1 = true ↔ ∃ e ∈ events, ∃ d ∈ ds, ciContains e.event d)
  ∧ (classifyDanger events ds).2
      = (events.filter (fun e => decide (∃ d ∈ ds, ciContains e.event d))).map
          (fun e => e.event) := by
  have hfilter :
      events.filter (fun e => ds.any (fun d => decide (d <:+: lowerL e.event)))
        = events.filter (fun e => decide (∃ d ∈ ds, ciContains e.event d)) := by
    refine List.filter_congr fun e _ => ?_
    rw [Bool.eq_iff_iff, decide_eq_true_eq]
    exact danger_match_iff hds e
  constructor
  · simp only [classifyDanger, decide_eq_true_eq, hfilter, List.length_map,
      List.length_pos, ne_eq, List.filter_eq_nil_iff, decide_eq_true_eq, not_forall]
    constructor
    · rintro ⟨e, he, hp⟩
      exact ⟨e, he, not_not.mp hp⟩
    · rintro ⟨e, he, hp⟩
      exact ⟨e, he, not_not.mpr hp⟩
  · simp only [classifyDanger, hfilter]

/-- Witness for C4: on the spec's own example, one event labelled
"Ambient Siren" against the fixed dangerous set, the flag is raised and
the original label is reported. -/
theorem classifyDanger_correct_witness :
    (classifyDanger dangerEx DANGEROUS_EVENTS).1 = true
      ∧ (classifyDanger dangerEx DANGEROUS_EVENTS).2 = [strL "Ambient Siren"] :=
  ⟨(classifyDanger_correct dangerEx DANGEROUS_EVENTS (by decide)).1.mpr
      ⟨⟨"e1", strL "Ambient Siren", 0, 1, mkRat 9 10⟩, by decide,
        strL "siren", by decide, ⟨strL "Siren", by decide, by decide⟩⟩,
    ((classifyDanger_correct dangerEx DANGEROUS_EVENTS (by decide)).2).trans (by decide)⟩

/-! ## C5 — advisory generation only on danger -/

/-- C5: when the danger flag is false the Advisory Generator is not
invoked (call count 0) and the precautionary message is empty; when it
is true the message is exactly the generator's output on the matched
labels (call count 1). -/
theorem precaution_policy (advGen : List Label → String) (events : List DetectedEvent) :
    ((classifyDanger events DANGEROUS_EVENTS).1 = false →
        buildPrecaution advGen events = ((false, ""), 0))
  ∧ ((classifyDanger events DANGEROUS_EVENTS).1 = true →
        buildPrecaution advGen events
          = ((true, advGen (classifyDanger events DANGEROUS_EVENTS).2), 1)) := by
  constructor <;> intro h <;> simp [buildPrecaution, h]

/-- Witness for C5: no advisory call on a safe list, one call with the
matched labels on a dangerous one. -/
theorem precaution_policy_witness :
    buildPrecaution advX [] = ((false, ""), 0)
      ∧ buildPrecaution advX dangerEx = ((true, advX [strL "Ambient Siren"]), 1) :=
  ⟨(precaution_policy advX []).1 (by decide),
    ((precaution_policy advX dangerEx).2 (by decide)).trans (by decide)⟩

/-! ## C6 — gateway failure aborts the analysis -/

/-- C6: when the Classifier Gateway fails, `analyzeAudioClip` yields the
fixed analysis-failure error — no curation output, no assembled result —
and the history handler leaves the history unchanged, recording only the
error message. -/
theorem gateway_failure_aborts (rand : Nat → ℚ) (hist : List AnalysisRec)
    (clipName err : String) :
    analyzeAudioClip rand clipName (Except.error err) = Except.error analysisFailedMsg
  ∧ handleAnalysis rand hist clipName (Except.error err) = (hist, some analysisFailedMsg) :=
  ⟨rfl, rfl⟩

/-! ## C7 — summary generation policy -/

/-- C7: when events survive the filter the Summary Generator is invoked
exactly once and its output is the summary; when none survive it is not
invoked and the summary is the fixed no-significant-events sentence. -/
theorem summary_policy (sumGen : List DetectedEvent → String) (raw : List DetectedEvent) :
    (confFilter (mkRat 4 5) raw ≠ [] →
        analyzeForSummary sumGen raw
          = ((confFilter (mkRat 4 5) raw, sumGen (confFilter (mkRat 4 5) raw)), 1))
  ∧ (confFilter (mkRat 4 5) raw = [] →
        analyzeForSummary sumGen raw = (([], noEventsSummary), 0)) := by
  constructor
  · intro h
    have hl : 0 < (confFilter (mkRat 4 5) raw).length := List.length_pos.mpr h
    simp [analyzeForSummary, buildSummary, hl]
  · intro h
    simp [analyzeForSummary, buildSummary, h]

/-- Witness for C7: `raw3` all passes the filter so the generator runs;
the empty list yields the fixed sentence with no generator call. -/
theorem summary_policy_witness :
    analyzeForSummary sumX raw3 = ((raw3, sumX raw3), 1)
      ∧ analyzeForSummary sumX [] = (([], noEventsSummary), 0) :=
  ⟨((summary_policy sumX raw3).1 (by decide)).trans (by decide),
    (summary_policy sumX []).2 (by decide)⟩

/-! ## C9 — history is append-only, most-recent-first -/

/-- C9: every successful analysis prepends exactly one result at index
0 and preserves the existing entries; after three sequential successes
starting from an empty history the length is 3 and the most recent
result is at the head. -/
theorem history_append_only (rand : Nat → ℚ) (hist : List AnalysisRec)
    (clipName : String) (evs : List DetectedEvent) :
    (handleAnalysis rand hist clipName (Except.ok evs)
        = (⟨clipName, curate rand (mkRat 4 5) evs⟩ :: hist, none))
  ∧ (handleAnalysis rand hist clipName (Except.ok evs)).1.length = hist.length + 1
  ∧ ∀ (n1 n2 n3 : String) (e1 e2 e3 : List DetectedEvent),
      (handleAnalysis rand
          (handleAnalysis rand
            (handleAnalysis rand [] n1 (Except.ok e1)).1 n2 (Except.ok e2)).1
          n3 (Except.ok e3)).1.length = 3
    ∧ (handleAnalysis rand
          (handleAnalysis rand
            (handleAnalysis rand [] n1 (Except.ok e1)).1 n2 (Except.ok e2)).1
          n3 (Except.ok e3)).1.head?
        = some ⟨n3, curate rand (mkRat 4 5) e3⟩ :=
  ⟨rfl, rfl, fun _ _ _ _ _ _ => ⟨rfl, rfl⟩⟩

/-! ## C10 — the explicit baby-sneeze append -/

/-- C10: whenever the list after filtering and demo-fill contains no
event whose lowercased label contains "baby sneeze", the pipeline
appends one synthetic event with id "dummy-sneeze", label "Baby
sneeze", time span [3.0, 3.5] and confidence 0.95 before capping to 5;
on the concrete `raw3` this synthetic sneeze reaches the delivered
output although no raw event carried the label. -/
theorem sneeze_append (rand : Nat → ℚ) (t : ℚ) (raw : List DetectedEvent)
    (h : someContains (fillStep rand (sortDesc (confFilter t raw))) (strL "baby sneeze")
        = false) :
    sneezeStep (fillStep rand (sortDesc (confFilter t raw)))
        = fillStep rand (sortDesc (confFilter t raw)) ++ [sneezeEvent]
  ∧ curate rand t raw
      = (fillStep rand (sortDesc (confFilter t raw)) ++ [sneezeEvent]).take 5
  ∧ sneezeEvent
      = ⟨"dummy-sneeze", strL "Baby sneeze", 3, mkRat 7 2, mkRat 19 20⟩
  ∧ sneezeEvent ∈ curate rand0 (mkRat 4 5) raw3
  ∧ ∀ e ∈ raw3, ¬ (strL "baby sneeze" <:+: lowerL e.event) := by
  have h1 : sneezeStep (fillStep rand (sortDesc (confFilter t raw)))
      = fillStep rand (sortDesc (confFilter t raw)) ++ [sneezeEvent] := by
    rw [sneezeStep, if_neg (by simp [h])]
  exact ⟨h1, by rw [curate, h1], rfl, by decide, by decide⟩

/-- Witness for C10 at the concrete input `raw3`: the fill loop pushes
nothing and no label mentions a baby sneeze, so the synthetic event is
appended. -/
theorem sneeze_append_witness :
    sneezeStep (fillStep rand0 (sortDesc (confFilter (mkRat 4 5) raw3)))
        = fillStep rand0 (sortDesc (confFilter (mkRat 4 5) raw3)) ++ [sneezeEvent]
  ∧ curate rand0 (mkRat 4 5) raw3
      = (fillStep rand0 (sortDesc (confFilter (mkRat 4 5) raw3)) ++ [sneezeEvent]).take 5
  ∧ sneezeEvent
      = ⟨"dummy-sneeze", strL "Baby sneeze", 3, mkRat 7 2, mkRat 19 20⟩
  ∧ sneezeEvent ∈ curate rand0 (mkRat 4 5) raw3
  ∧ ∀ e ∈ raw3, ¬ (strL "baby sneeze" <:+: lowerL e.event) :=
  sneeze_append rand0 (mkRat 4 5) raw3 (by decide)

/-! ## C8 — re-curation of an already-curated list -/

theorem curate_conf_lb (rand : Nat → ℚ) (raw : List DetectedEvent)
    (hr : ∀ k, 0 ≤ rand k) :
    ∀ e ∈ curate rand (mkRat 4 5) raw, mkRat 4 5 ≤ e.confidence := by
  intro e he
  rcases mem_curate he with ⟨_, h2⟩ | ⟨k, hk⟩ | hs
  · exact h2
  · exact hk ▸ mkDummy_conf_lb rand k _ (hr k)
  · subst hs
    norm_num [sneezeEvent, Rat.mkRat_eq_div]

theorem curate_saturated (rand : Nat → ℚ) (t : ℚ) (raw : List DetectedEvent)
    (h5 : (curate rand t raw).length < 5) :
    (∀ j, (curate rand t raw).length ≤ j → j < 5 →
        someContains (curate rand t raw) (requiredEvents.getD (j % 10) []) = true)
  ∧ someContains (curate rand t raw) (strL "baby sneeze") = true := by
  obtain ⟨ext1, h1⟩ := fillLoop_append rand (5 - (sortDesc (confFilter t raw)).length)
      (sortDesc (confFilter t raw)).length (sortDesc (confFilter t raw))
  obtain ⟨ext2, h2⟩ := sneezeStep_append_form (fillStep rand (sortDesc (confFilter t raw)))
  have hS : (sneezeStep (fillStep rand (sortDesc (confFilter t raw)))).length < 5 := by
    have h := h5
    rw [curate, List.length_take] at h
    omega
  have hc : curate rand t raw
      = sneezeStep (fillStep rand (sortDesc (confFilter t raw))) := by
    rw [curate]
    exact List.take_of_length_le (by omega)
  have hn0 : (sortDesc (confFilter t raw)).length
      ≤ (sneezeStep (fillStep rand (sortDesc (confFilter t raw)))).length := by
    rw [h2, fillStep_eq, h1]
    simp only [List.length_append]
    omega
  constructor
  · intro j hj1 hj2
    rw [hc] at hj1 ⊢
    have hF : someContains (fillStep rand (sortDesc (confFilter t raw)))
        (requiredEvents.getD (j % 10) []) = true := by
      rw [fillStep_eq]
      apply someContains_fillLoop
      · omega
      · omega
    rw [h2]
    exact someContains_append_left hF
  · rw [hc, sneezeStep]
    split
    · assumption
    · exact someContains_push _ _ _ (by decide)

theorem recurate_core (rand2 : Nat → ℚ) (c : List DetectedEvent)
    (hconf : ∀ e ∈ c, mkRat 4 5 ≤ e.confidence)
    (hle5 : c.length ≤ 5)
    (hsat : c.length < 5 → ∀ j, c.length ≤ j → j < 5 →
        someContains c (requiredEvents.getD (j % 10) []) = true)
    (hsneeze : c.length < 5 → someContains c (strL "baby sneeze") = true) :
    curate rand2 (mkRat 4 5) c = sortDesc c := by
  have hfil : confFilter (mkRat 4 5) c = c :=
    List.filter_eq_self.mpr fun e he => decide_eq_true (hconf e he)
  have hperm : (sortDesc c).Perm c := List.perm_insertionSort confGE c
  have hlen : (sortDesc c).length = c.length := length_sortDesc c
  by_cases h5 : c.length < 5
  · have hfill : fillStep rand2 (sortDesc c) = sortDesc c := by
      rw [fillStep_eq, hlen]
      apply fillLoop_skip_all
      intro j hj1 hj2
      rw [someContains_perm hperm]
      exact hsat h5 j hj1 (by omega)
    have hsz : sneezeStep (sortDesc c) = sortDesc c := by
      have hbs : someContains (sortDesc c) (strL "baby sneeze") = true := by
        rw [someContains_perm hperm]
        exact hsneeze h5
      rw [sneezeStep, if_pos hbs]
    rw [curate, hfil, hfill, hsz]
    exact List.take_of_length_le (by omega)
  · have hfill : fillStep rand2 (sortDesc c) = sortDesc c :=
      fillStep_of_five_le rand2 (by omega)
    obtain ⟨ext, hext⟩ := sneezeStep_append_form (sortDesc c)
    rw [curate, hfil, hfill, hext,
      List.take_append_of_le_length (by omega),
      List.take_of_length_le (by omega)]

/-- C8 (counterexample): re-curating the curated output of `raw3` —
`[evA, evB, evC, sneezeEvent]`, whose appended sneeze is out of order —
re-sorts it, so curation is not idempotent. -/
theorem curate_idempotent_counterexample :
    curate rand0 (mkRat 4 5) (curate rand0 (mkRat 4 5) raw3)
      ≠ curate rand0 (mkRat 4 5) raw3 := by decide

/-- C8 (amended): re-curating an already-curated list (same 0.8
threshold) filters nothing, inserts no filler and no baby sneeze, and
returns exactly the same events re-sorted stably by descending
confidence; in particular it is idempotent precisely on outputs that
are already in non-increasing confidence order. -/
theorem curate_recurate (rand rand2 : Nat → ℚ) (raw : List DetectedEvent)
    (hr : ∀ k, 0 ≤ rand k) :
    curate rand2 (mkRat 4 5) (curate rand (mkRat 4 5) raw)
      = sortDesc (curate rand (mkRat 4 5) raw)
  ∧ ((curate rand (mkRat 4 5) raw).Pairwise confGE →
      curate rand2 (mkRat 4 5) (curate rand (mkRat 4 5) raw)
        = curate rand (mkRat 4 5) raw) := by
  have hmain : curate rand2 (mkRat 4 5) (curate rand (mkRat 4 5) raw)
      = sortDesc (curate rand (mkRat 4 5) raw) := by
    apply recurate_core
    · exact curate_conf_lb rand raw hr
    · exact length_curate_le rand (mkRat 4 5) raw
    · exact fun h5 => (curate_saturated rand (mkRat 4 5) raw h5).1
    · exact fun h5 => (curate_saturated rand (mkRat 4 5) raw h5).2
  refine ⟨hmain, fun hsorted => ?_⟩
  rw [hmain, sortDesc]
  exact List.Sorted.insertionSort_eq hsorted

/-- Witness for C8: re-curating the curated output of `raw3` yields its
descending re-sort. -/
theorem curate_recurate_witness :
    curate rand0 (mkRat 4 5) (curate rand0 (mkRat 4 5) raw3)
      = sortDesc (curate rand0 (mkRat 4 5) raw3) :=
  (curate_recurate rand0 rand0 raw3 fun _ => le_refl 0).1

end Spotter
